import Mathlib

/-!
Verification development for the server-side coordination core of the
jshanley/diplomacy repository: shallow embedding of the token authority
(diplomacy/utils/token.py), the user registry (diplomacy/server/users.py),
the player log store (diplomacy/server/player_log.py), the lobby coordinator
(diplomacy/server/lobby.py), the HTTP boundary (diplomacy/server/http_api.py)
and the talk-round sub-state machine of ServerGame.process, together with
theorems settling the frozen claims about this code.

Python dictionaries are embedded as association lists with unique keys,
Python sets as lists used up to membership, and machine-level concerns
(HMAC computation, uuid generation, the random module, file descriptors)
are abstracted exactly where noted in each doc comment: randomness becomes
an explicit parameter constrained by the documented contract of the Python
primitive it replaces, and the HMAC signature of a token becomes a Boolean
field meaning that verification under the server secret key succeeds.
-/

namespace Diplomacy

/-- Association list lookup.  Embeds a read `d.get(k)` / `k in d` on a Python
dict whose keys are unique. -/
def lookupA {κ β : Type} [DecidableEq κ] (k : κ) : List (κ × β) → Option β
  | [] => none
  | (k₁, v) :: rest => if k₁ = k then some v else lookupA k rest

/-- Association list update `d[k] = v`: replaces the value at the first
occurrence of the key, or appends the pair when the key is absent (Python
dicts keep insertion order and a fresh key goes to the end). -/
def setA {κ β : Type} [DecidableEq κ] (k : κ) (v : β) : List (κ × β) → List (κ × β)
  | [] => [(k, v)]
  | (k₁, v₁) :: rest => if k₁ = k then (k, v) :: rest else (k₁, v₁) :: setA k v rest

/-- Association list removal `d.pop(k, None)`: drops every entry at the key
(a Python dict holds at most one, so this agrees with popping it). -/
def removeA {κ β : Type} [DecidableEq κ] (k : κ) : List (κ × β) → List (κ × β)
  | [] => []
  | (k₁, v₁) :: rest => if k₁ = k then removeA k rest else (k₁, v₁) :: removeA k rest

/-! ## Token authority (diplomacy/utils/token.py) -/

/-- Claims carried by a JWT minted by `create_token`: subject username,
issued-at, expiry and the unique token id. -/
structure TokenClaims where
  sub : String
  iat : Nat
  exp : Nat
  jti : String
deriving DecidableEq

/-- A token string, embedded as its decoded claims plus a Boolean recording
whether its HMAC-SHA256 signature verifies under the server secret key
(the byte-level HMAC computation is abstracted into this field; two tokens
are equal exactly when all claims and the signature bit agree, matching
byte-equality of the encoded strings for a fixed signing key). -/
structure Token where
  claims : TokenClaims
  sigValid : Bool
deriving DecidableEq

inductive DecodeError
  | invalidToken
  | expiredSignature
deriving DecidableEq

/-- Embeds `decode_token(secret_key, token)` = `jwt.decode`: fails with
`InvalidTokenError` when the signature does not verify, with
`ExpiredSignatureError` when the exp claim is not in the future
(pyjwt treats `exp <= now` as expired), and otherwise returns the claims. -/
def decode_token (now : Nat) (t : Token) : Except DecodeError TokenClaims :=
  if t.sigValid = false then .error .invalidToken
  else if t.claims.exp ≤ now then .error .expiredSignature
  else .ok t.claims

/-- Embeds `get_token_id(token)`: reads the jti claim without verifying the
signature. -/
def get_token_id (t : Token) : String :=
  t.claims.jti

/-! ## User registry and connection bindings (diplomacy/server/users.py) -/

/-- Modelled from the spec: `diplomacy.utils.common.hash_password` is not
under src/; it is modelled as a deterministic function of the password
(determinism is the only property the claims use). -/
def hash_password (password : String) : String :=
  String.append "pbkdf2:" password

/-- Modelled from the spec: `User.is_valid_password` (diplomacy/server/user.py
is not under src/); per the spec data model a User stores `password_hash`,
and a password is valid exactly when its hash equals the stored hash. -/
def is_valid_password (stored password : String) : Bool :=
  stored = hash_password password

/-- State of the `Users` object: usernames mapped to their password hash,
the administrator set, the revocation set of jti values, and the two
in-memory connection maps.  Connection handlers are identified by numbers
(object identity of the Python handler objects). -/
structure UsersState where
  users : List (String × String)
  administrators : List String
  revoked_tokens : List String
  token_to_connection_handler : List (Token × Nat)
  connection_handler_to_tokens : List (Nat × List Token)
deriving DecidableEq

/-- Embeds `Users.has_username`. -/
def has_username (st : UsersState) (username : String) : Bool :=
  (lookupA username st.users).isSome

/-- Embeds `Users.has_user`: username present and stored hash validates the
given password. -/
def has_user (st : UsersState) (username password : String) : Bool :=
  match lookupA username st.users with
  | some stored => is_valid_password stored password
  | none => false

/-- Embeds `Users.has_token`: decode (signature + expiry), then reject a
revoked jti, then require the subject to be a registered username. -/
def has_token (now : Nat) (st : UsersState) (t : Token) : Bool :=
  match decode_token now t with
  | .error _ => false
  | .ok payload =>
    if payload.jti ∈ st.revoked_tokens then false
    else (lookupA payload.sub st.users).isSome

/-- Embeds `Users.get_connection_handler`. -/
def get_connection_handler (st : UsersState) (t : Token) : Option Nat :=
  lookupA t st.token_to_connection_handler

/-- Embeds `Users.add_user` (the User object is built from username and
password hash). -/
def add_user (username password_hash : String) (st : UsersState) : UsersState :=
  { st with users := setA username password_hash st.users }

/-- Embeds `Users.connect_user`: ensures the handler has a token set, then
records the bidirectional binding. -/
def connect_user (t : Token) (conn : Nat) (st : UsersState) : UsersState :=
  let c2t :=
    match lookupA conn st.connection_handler_to_tokens with
    | none => setA conn [t] st.connection_handler_to_tokens
    | some toks =>
        setA conn (if t ∈ toks then toks else toks ++ [t]) st.connection_handler_to_tokens
  { st with
      token_to_connection_handler := setA t conn st.token_to_connection_handler,
      connection_handler_to_tokens := c2t }

/-- Embeds `Users.attach_connection_handler`.  When the token is valid and
already bound to a different handler, the `assert` statement fails: this is
embedded as an error result.  When bound to the same handler the assert
passes and nothing changes; when unbound, the binding is recorded (after a
logged warning); when the token is invalid nothing happens. -/
def attach_connection_handler (now : Nat) (t : Token) (conn : Nat) (st : UsersState) :
    Except String UsersState :=
  if has_token now st t then
    match get_connection_handler st t with
    | some previous =>
        if previous = conn then .ok st
        else .error "AssertionError: A new connection handler cannot be attached to a token always connected to another handler."
    | none =>
        let c2t :=
          match lookupA conn st.connection_handler_to_tokens with
          | none => setA conn [t] st.connection_handler_to_tokens
          | some toks =>
              setA conn (if t ∈ toks then toks else toks ++ [t]) st.connection_handler_to_tokens
        .ok { st with
                token_to_connection_handler := setA t conn st.token_to_connection_handler,
                connection_handler_to_tokens := c2t }
  else .ok st

/-- Embeds `Users.disconnect_token`: adds the jti to the revocation set (the
jti of a structurally well-formed token is always readable without
verification), pops the token from the token-to-handler map, and discards it
from the set of the handler it was bound to, dropping that handler entry
when its set becomes empty. -/
def disconnect_token (t : Token) (st : UsersState) : UsersState :=
  let st₁ := { st with revoked_tokens := get_token_id t :: st.revoked_tokens }
  match lookupA t st₁.token_to_connection_handler with
  | none => st₁
  | some h =>
      let t2c := removeA t st₁.token_to_connection_handler
      let c2t :=
        match lookupA h st₁.connection_handler_to_tokens with
        | none => st₁.connection_handler_to_tokens
        | some toks =>
            let toks₁ := toks.filter (fun x => x ≠ t)
            if toks₁ = [] then removeA h st₁.connection_handler_to_tokens
            else setA h toks₁ st₁.connection_handler_to_tokens
      { st₁ with token_to_connection_handler := t2c, connection_handler_to_tokens := c2t }

/-- Embeds `LobbyManager._attach_token` (identical code appears as
`_BaseApiHandler._attach_token` in http_api.py): allocate a fresh ephemeral
connection `conn`, detach the token from its previous handler if that is a
different object, then call `attach_connection_handler`. -/
def lobby_attach_token (now : Nat) (t : Token) (conn : Nat) (st : UsersState) :
    Except String UsersState :=
  let st₁ :=
    match get_connection_handler st t with
    | none => st
    | some existing =>
        if existing = conn then st
        else
          let t2c := removeA t st.token_to_connection_handler
          let c2t :=
            match lookupA existing st.connection_handler_to_tokens with
            | none => st.connection_handler_to_tokens
            | some toks =>
                let toks₁ := toks.filter (fun x => x ≠ t)
                if toks₁ = [] then removeA existing st.connection_handler_to_tokens
                else setA existing toks₁ st.connection_handler_to_tokens
          { st with token_to_connection_handler := t2c, connection_handler_to_tokens := c2t }
  attach_connection_handler now t conn st₁

/-- Concrete token used in the counterexample for the conflicting-attach
claim: a well-signed token for a registered user, far from expiry. -/
def tok₀ : Token :=
  { claims := { sub := "alice", iat := 0, exp := 1000, jti := "jti-0" }, sigValid := true }

/-- Concrete registry state in which `tok₀` is valid and bound to connection
handler 1. -/
def st₀ : UsersState :=
  { users := [("alice", "h")]
    administrators := []
    revoked_tokens := []
    token_to_connection_handler := [(tok₀, 1)]
    connection_handler_to_tokens := [(1, [tok₀])] }

/-! ## Player log store (diplomacy/server/player_log.py) -/

/-- A player log store: the JSONL file at
`data/player_logs/username/game_id.jsonl` is embedded as the list of its
lines, one serialized JSON record per line; a pair absent from the store is
a file that does not exist on disk.  The ujson layer is abstracted: an entry
is carried as the exact line that `json.dumps` wrote, and `json.loads` of
that line is the entry itself. -/
abbrev PlayerLogStore := List ((String × String) × List String)

/-- Embeds `PlayerLog.append_phase`: opening in append mode creates the file
when missing, then one record plus a newline is written. -/
def append_phase (username game_id entry : String) (store : PlayerLogStore) : PlayerLogStore :=
  setA (username, game_id)
    ((lookupA (username, game_id) store).getD [] ++ [entry]) store

/-- Embeds the line loop of `PlayerLog.get_game_log`: `i` is the enumerate
index and `cnt` the number of entries collected so far; a line with index
below `offset` is skipped, reading stops once `limit` entries are collected,
and a line that is empty after strip is skipped (a serialized record is
never empty and carries no surrounding whitespace, so strip is the identity
on records). -/
def limitReached (limit : Option Nat) (cnt : Nat) : Bool :=
  match limit with
  | some l => l ≤ cnt
  | none => false

/-- Embeds the enumerate loop itself; the break condition
`limit is not None and len(entries) >= limit` is `limitReached`. -/
def readLoop (limit : Option Nat) (offset : Nat) : Nat → Nat → List String → List String
  | _, _, [] => []
  | i, cnt, line :: rest =>
    if i < offset then readLoop limit offset (i + 1) cnt rest
    else if limitReached limit cnt then []
    else if line = "" then readLoop limit offset (i + 1) cnt rest
    else line :: readLoop limit offset (i + 1) (cnt + 1) rest

/-- Embeds `PlayerLog.get_game_log`: a missing file yields the empty list
instead of an error. -/
def get_game_log (store : PlayerLogStore) (username game_id : String)
    (limit : Option Nat) (offset : Nat) : List String :=
  match lookupA (username, game_id) store with
  | none => []
  | some lines => readLoop limit offset 0 0 lines

/-- Sequence of `append_phase` calls for the entries in order. -/
def append_all (username game_id : String) (entries : List String)
    (store : PlayerLogStore) : PlayerLogStore :=
  entries.foldl (fun s e => append_phase username game_id e s) store

/-! ## Order validation (OrdersHandler.post / LobbyOrdersHandler.post in
diplomacy/server/http_api.py) -/

/-- Python `str.split()` with no arguments: split on whitespace runs,
dropping empty pieces. -/
def pySplit (s : String) : List String :=
  (s.split Char.isWhitespace).filter (fun piece => piece ≠ "")

/-- One element of the `invalid_orders` list in the 400 response body. -/
structure InvalidOrder where
  order : String
  reason : String
  suggestions : Option (List String)
deriving DecidableEq

/-- Embeds the construction of `orders_by_loc`: for each location the power
may order (in order), the non-empty list of possible orders there
(`possible.get(loc, [])`). -/
def ordersByLoc (possible : List (String × List String)) (myLocs : List String) :
    List (String × List String) :=
  myLocs.filterMap (fun loc =>
    let locOrders := (lookupA loc possible).getD []
    if locOrders = [] then none else some (loc, locOrders))

/-- Embeds `all_possible`: the union of the per-location legal orders
(a Python set, used only through membership). -/
def allPossible (obl : List (String × List String)) : List String :=
  obl.foldl (fun acc p => acc ++ p.2) []

/-- Embeds the else-branch of the validation loop in `OrdersHandler.post`:
the origin location is the second whitespace-separated part of the order
string, and the suggestions are the first 5 legal orders at that location
when it is one of the keys of `orders_by_loc`, else null. -/
def mkInvalidOrder (obl : List (String × List String)) (order : String) : InvalidOrder :=
  let parts := pySplit order
  let loc := if parts.length ≥ 2 then parts[1]? else none
  let suggestion :=
    match loc with
    | none => none
    | some l =>
        match lookupA l obl with
        | some os => some (os.take 5)
        | none => none
  { order := order, reason := "Not in the set of possible orders", suggestions := suggestion }

/-- Embeds the validation loop: split the submitted order strings into the
members of `all_possible` (kept in order) and invalid-order descriptors. -/
def classifyOrders (obl : List (String × List String)) (orders : List String) :
    List String × List InvalidOrder :=
  orders.foldl
    (fun acc order =>
      if order ∈ allPossible obl then (acc.1 ++ [order], acc.2)
      else (acc.1, acc.2 ++ [mkInvalidOrder obl order]))
    ([], [])

/-- Observable outcome of the submit-orders POST: HTTP status, the response
details, and the orders actually forwarded to the engine via a SetOrders
request (`none` when no request is issued at all, which is the only way the
handler ever mutates the game). -/
structure OrdersPostOutcome where
  status : Nat
  invalid_orders : List InvalidOrder
  valid_orders_accepted : List String
  submitted : Option (List String)
deriving DecidableEq

/-- Embeds the validation-and-submit tail of `OrdersHandler.post` (after the
token, game, power and controller checks): when any submitted order is
invalid, respond 400 with the invalid descriptors and the valid orders that
were accepted but not submitted, issuing no SetOrders request; otherwise
submit exactly the valid orders. -/
def orders_post (possible : List (String × List String)) (myLocs : List String)
    (orders : List String) : OrdersPostOutcome :=
  let obl := ordersByLoc possible myLocs
  let valid_invalid := classifyOrders obl orders
  if valid_invalid.2 = [] then
    { status := 200, invalid_orders := [], valid_orders_accepted := valid_invalid.1,
      submitted := some valid_invalid.1 }
  else
    { status := 400, invalid_orders := valid_invalid.2,
      valid_orders_accepted := valid_invalid.1, submitted := none }

/-! ## Lobby coordinator (diplomacy/server/lobby.py) -/

/-- The unambiguous code alphabet (no 0/O, 1/I/L). -/
def CODE_ALPHABET : List Char := "ABCDEFGHJKMNPQRSTUVWXYZ23456789".toList

def CODE_LENGTH : Nat := 4

/-- A player in a lobby, backed by a stable user identity (`Player` in
lobby.py; the `joined_at` wall-clock field is not modelled). -/
structure LobbyPlayer where
  username : String
  display_name : String
  token : Token
  is_host : Bool
  power : Option String
deriving DecidableEq

/-- A lobby for a single game (`GameLobby` in lobby.py; the `created_at`
wall-clock field is not modelled).  `players` is the dict from username to
Player, in insertion order. -/
structure GameLobby where
  code : String
  map_name : String
  assignment : String
  n_powers : Nat
  status : String
  players : List (String × LobbyPlayer)
  host_username : String
  game_id : Option String
deriving DecidableEq

/-- Python `str.upper()` on the ASCII strings this server handles, computed
on the character list so that it reduces inside the kernel. -/
def pyUpper (s : String) : String := String.mk (s.data.map Char.toUpper)

/-- Python `str.lower()`, likewise on the character list. -/
def pyLower (s : String) : String := String.mk (s.data.map Char.toLower)

/-- Python `str.strip()`: drop leading and trailing whitespace. -/
def pyStrip (s : String) : String :=
  String.mk (((s.data.dropWhile Char.isWhitespace).reverse.dropWhile
    Char.isWhitespace).reverse)

/-- Python `code.upper().strip()`. -/
def normalizeCode (code : String) : String := pyStrip (pyUpper code)

/-- The server-side state a lobby operation touches: the user registry, the
lobby map (code to lobby, insertion-ordered), a counter allocating fresh
ephemeral connection objects, and the clock. -/
structure SrvState where
  users : UsersState
  lobbies : List (String × GameLobby)
  nextConn : Nat
  now : Nat
deriving DecidableEq

/-- Embeds `LobbyManager._ensure_user_registered`: add the user (with the
hash of the username as its password hash) when unseen, and connect the
token through a fresh ephemeral connection when it is not yet valid. -/
def ensure_user_registered (username : String) (tok : Token) (st : SrvState) : SrvState :=
  let st₁ :=
    if has_username st.users username then st
    else { st with users := add_user username (hash_password username) st.users }
  if has_token st₁.now st₁.users tok then st₁
  else
    { st₁ with
        users := connect_user tok st₁.nextConn st₁.users,
        nextConn := st₁.nextConn + 1 }

/-- Embeds the retry loop of `LobbyManager._generate_code`: `candidates i`
is the i-th string drawn by `random.choices(CODE_ALPHABET, k=CODE_LENGTH)`
(randomness is an explicit parameter), and `fuel` counts the remaining
attempts out of 100. -/
def generateCodeFrom (candidates : Nat → String) (keys : List String) :
    Nat → Nat → Except String String
  | _, 0 => .error "Could not generate unique code after 100 attempts"
  | i, fuel + 1 =>
    let code := candidates i
    if code ∈ keys then generateCodeFrom candidates keys (i + 1) fuel
    else .ok code

/-- Embeds `LobbyManager._generate_code`. -/
def generate_code (candidates : Nat → String) (keys : List String) : Except String String :=
  generateCodeFrom candidates keys 0 100

/-- Result of `LobbyManager.join_game`: the Python function returns
`(None, None)` for an unknown code (mapped by LobbyJoinHandler to a 404),
raises ValueError for the other failures (mapped to a 400), and returns the
lobby and player on success. -/
inductive JoinOutcome
  | notFound
  | failure (msg : String)
  | joined (lobby : GameLobby) (player : LobbyPlayer)
deriving DecidableEq

/-- Embeds `LobbyManager.join_game`. -/
def join_game (st : SrvState) (code username display_name : String) (tok : Token) :
    JoinOutcome × SrvState :=
  let ncode := normalizeCode code
  match lookupA ncode st.lobbies with
  | none => (.notFound, st)
  | some lobby =>
    if lobby.status ≠ "waiting" then (.failure "Game has already started", st)
    else if lobby.n_powers ≤ lobby.players.length then
      (.failure "Game is full", st)
    else
      match lookupA username lobby.players with
      | some existing =>
          let updated := { existing with token := tok }
          let lobby₁ := { lobby with players := setA username updated lobby.players }
          (.joined lobby₁ updated, { st with lobbies := setA ncode lobby₁ st.lobbies })
      | none =>
          if lobby.players.any (fun p => pyLower p.2.display_name = pyLower display_name)
          then (.failure "Name is already taken", st)
          else
            let st₁ := ensure_user_registered username tok st
            let player : LobbyPlayer :=
              { username := username, display_name := display_name, token := tok,
                is_host := false, power := none }
            let lobby₁ := { lobby with players := lobby.players ++ [(username, player)] }
            (.joined lobby₁ player, { st₁ with lobbies := setA ncode lobby₁ st₁.lobbies })

/-- Embeds `LobbyManager.create_game`; `maps` is `server.get_map` restricted
to what create_game reads from it (the power list of a map). -/
def lobby_create_game (candidates : Nat → String) (maps : List (String × List String))
    (st : SrvState) (username display_name : String) (tok : Token)
    (map_name assignment : String) :
    Except String (SrvState × GameLobby × LobbyPlayer) :=
  match generate_code candidates (st.lobbies.map Prod.fst) with
  | .error e => .error e
  | .ok code =>
    let st₁ := ensure_user_registered username tok st
    let host : LobbyPlayer :=
      { username := username, display_name := display_name, token := tok,
        is_host := true, power := none }
    let n_powers :=
      match lookupA map_name maps with
      | some powers => powers.length
      | none => 7
    let lobby : GameLobby :=
      { code := code, map_name := map_name, assignment := assignment,
        n_powers := n_powers, status := "waiting",
        players := [(username, host)], host_username := username, game_id := none }
    .ok ({ st₁ with lobbies := setA code lobby st₁.lobbies }, lobby, host)

/-- Engine interactions issued by `start_game` through
`request_managers.handle_request`. -/
inductive EngineCall
  | createGame (game_id : String) (n_controls : Nat) (map_name : String) (rules : List String)
  | joinGame (game_id : String) (power : Option String) (username : String)
deriving DecidableEq

/-- Python `sorted` on strings. -/
def pySorted (l : List String) : List String := l.mergeSort (fun a b => a ≤ b)

/-- Assigns the sampled powers to the players pairwise in lobby-insertion
order (`zip(players, assigned_powers)` with in-place mutation of the Player
objects). -/
def assignPowers : List (String × LobbyPlayer) → List String → List (String × LobbyPlayer)
  | [], _ => []
  | ps, [] => ps
  | (k, p) :: ps, pw :: pws => (k, { p with power := some pw }) :: assignPowers ps pws

/-- Embeds the per-player join loop of `start_game`: each player joins the
engine game as the assigned power under their own token; the first failure
is wrapped in a ValueError message and propagated. -/
def joinAll (engine : EngineCall → Except String Unit) (game_id : String) :
    List LobbyPlayer → Except String Unit
  | [] => .ok ()
  | p :: rest =>
    match engine (.joinGame game_id p.power p.username) with
    | .error e =>
        .error ("Failed to join " ++ p.display_name ++ " as " ++
          (p.power.getD "None") ++ ": " ++ e)
    | .ok _ => joinAll engine game_id rest

/-- Embeds `LobbyManager.start_game`.  The engine interactions (the
CreateGame and JoinGame requests through request_managers.handle_request,
together with the system-token and ephemeral-connection bookkeeping they
ride on, which touches only the user registry) are the `engine` oracle;
`sample` is `random.sample`, an explicit randomness parameter whose contract
is a hypothesis of the theorems.  The pair returned is the call result plus
the lobby map afterwards: Player objects are mutated in place when powers
are assigned, before any engine call, so the power assignment survives an
engine failure while the status change and game_id do not. -/
def start_game (engine : EngineCall → Except String Unit)
    (sample : List String → Nat → Option (List String))
    (maps : List (String × List String))
    (lobbies : List (String × GameLobby)) (code username : String) :
    Except String GameLobby × List (String × GameLobby) :=
  let ncode := normalizeCode code
  match lookupA ncode lobbies with
  | none => (.error "Game not found", lobbies)
  | some lobby =>
    if username ≠ lobby.host_username then
      (.error "Only the host can start the game", lobbies)
    else if lobby.status ≠ "waiting" then
      (.error "Game has already started", lobbies)
    else
      match lookupA lobby.map_name maps with
      | none => (.error ("Unknown map: " ++ lobby.map_name), lobbies)
      | some mapPowers =>
        let power_names := pySorted mapPowers
        let assignStep : Except String (List (String × LobbyPlayer)) :=
          if lobby.assignment = "random" then
            match sample power_names lobby.players.length with
            | none => .error "Sample larger than population or is negative"
            | some pws => .ok (assignPowers lobby.players pws)
          else .ok lobby.players
        match assignStep with
        | .error e => (.error e, lobbies)
        | .ok players₁ =>
          let lobby₁ := { lobby with players := players₁ }
          let lobbies₁ := setA ncode lobby₁ lobbies
          let game_id := "game_" ++ ncode
          match engine (.createGame game_id players₁.length lobby.map_name ["POWER_CHOICE"]) with
          | .error e => (.error ("Failed to create engine game: " ++ e), lobbies₁)
          | .ok _ =>
            match joinAll engine game_id (players₁.map Prod.snd) with
            | .error e => (.error e, lobbies₁)
            | .ok _ =>
              let lobby₂ := { lobby₁ with status := "started", game_id := some game_id }
              (.ok lobby₂, setA ncode lobby₂ lobbies₁)

/-! ## Concrete fixtures used by the closed witnesses of the lobby
theorems. -/

def tokW : Token :=
  { claims := { sub := "host", iat := 0, exp := 500, jti := "jti-w" }, sigValid := true }

def tokW₂ : Token :=
  { claims := { sub := "bob", iat := 0, exp := 500, jti := "jti-w2" }, sigValid := true }

def hostPW : LobbyPlayer :=
  { username := "host", display_name := "Host Name", token := tokW, is_host := true,
    power := none }

def bobPW : LobbyPlayer :=
  { username := "bob", display_name := "Bobby", token := tokW₂, is_host := false,
    power := none }

def lobbyWaitW : GameLobby :=
  { code := "GAME", map_name := "standard", assignment := "random", n_powers := 7,
    status := "waiting", players := [("host", hostPW), ("bob", bobPW)],
    host_username := "host", game_id := none }

def lobbyFullW : GameLobby :=
  { code := "FULL", map_name := "standard", assignment := "random", n_powers := 2,
    status := "waiting", players := [("host", hostPW), ("bob", bobPW)],
    host_username := "host", game_id := none }

def lobbyStartedW : GameLobby :=
  { code := "STRT", map_name := "standard", assignment := "random", n_powers := 7,
    status := "started", players := [("host", hostPW)],
    host_username := "host", game_id := some "game_STRT" }

def srvW : SrvState :=
  { users :=
      { users := [("host", hash_password "host"), ("bob", hash_password "bob")],
        administrators := [], revoked_tokens := [],
        token_to_connection_handler := [], connection_handler_to_tokens := [] },
    lobbies := [("GAME", lobbyWaitW), ("FULL", lobbyFullW), ("STRT", lobbyStartedW)],
    nextConn := 0, now := 10 }

def stdPowersW : List String :=
  ["AUSTRIA", "ENGLAND", "FRANCE", "GERMANY", "ITALY", "RUSSIA", "TURKEY"]

def mapsW : List (String × List String) := [("standard", stdPowersW)]

def candW : Nat → String := fun _ => "QZXV"

/-- A concrete instance of the `random.sample` contract: the first k elements
of the population when they are k distinct ones. -/
def sampleW : List String → Nat → Option (List String) :=
  fun pop k => if k ≤ pop.length ∧ pop.Nodup then some (pop.take k) else none

def engineOkW : EngineCall → Except String Unit := fun _ => .ok ()

/-! ## Identity and login (IdentityHandler.post / LoginHandler.post in
diplomacy/server/http_api.py) -/

/-- Python `display_name.lower().replace(" ", "_")`: pattern and replacement
are single characters, so str.replace is a per-character map. -/
def derive_username (display_name : String) : String :=
  String.mk ((pyLower display_name).data.map (fun c => if c = ' ' then '_' else c))

/-- Embeds `IdentityHandler.post`: strip and validate the display name,
derive the username, create the account when missing with the hash of the
derived username as its credential (no user-chosen secret is involved),
then mint a token and connect it (the minted token and the fresh ephemeral
connection are explicit parameters).  Returns the error status and message
or the username, along with the updated registry. -/
def identity_post (tok : Token) (conn : Nat) (st : UsersState) (display_name : String) :
    Option (Nat × String) × UsersState × Option String :=
  let dn := pyStrip display_name
  if dn = "" then (some (400, "Provide display_name"), st, none)
  else if 20 < dn.length then
    (some (400, "Display name must be 20 characters or fewer"), st, none)
  else
    let username := derive_username dn
    let st₁ :=
      if has_username st username then st
      else add_user username (hash_password username) st
    (none, connect_user tok conn st₁, some username)

/-- Embeds `LoginHandler.post`: missing fields give a 400, an unknown
username creates the account with the hash of the supplied password, a known
username with a wrong password gives a 401, and otherwise a fresh token is
minted and connected. -/
def login_post (tok : Token) (conn : Nat) (st : UsersState) (username password : String) :
    Option (Nat × String) × UsersState :=
  if username = "" ∨ password = "" then
    (some (400, "Provide username and password in JSON body"), st)
  else if has_username st username = false then
    (none, connect_user tok conn (add_user username (hash_password password) st))
  else if has_user st username password = false then
    (some (401, "Wrong password"), st)
  else
    (none, connect_user tok conn st)

/-! ## Phase clock and talk-round controller (ServerGame.process).

The ServerGame class (diplomacy/server/server_game.py) and the engine Game
class are code of this repository that is not under src/ — only their tests
are.  The phase calendar, the talk sub-state machine and the process tick
are therefore modelled from the spec (sections 4.D, 4.E and 4.F), faithful
to its words, and cross-checked against the behaviour fixed by
src/diplomacy/tests/test_talk_phase.py. -/

inductive Season
  | spring
  | fall
  | winter
deriving DecidableEq

inductive PhaseType
  | T
  | M
  | R
  | A
deriving DecidableEq

/-- Modelled from the spec: a phase identifier SEASON YEAR TYPE. -/
structure Phase where
  season : Season
  year : Nat
  ptype : PhaseType
deriving DecidableEq

/-- Modelled from the spec: the cyclic sequence of phase templates, repeated
across years. -/
def phaseTemplate : List (Season × PhaseType) :=
  [(.spring, .T), (.spring, .M), (.spring, .R),
    (.fall, .T), (.fall, .M), (.fall, .R),
    (.winter, .A)]

/-- Modelled from the spec: advance to the next phase in the sequence, the
year rolling forward after WINTER ADJUSTMENTS. -/
def findNextPhase (p : Phase) : Phase :=
  let i := phaseTemplate.findIdx (fun x => x = (p.season, p.ptype))
  match phaseTemplate[i + 1]? with
  | some st => { season := st.1, year := p.year, ptype := st.2 }
  | none => { season := .spring, year := p.year + 1, ptype := .T }

def seasonChar : Season → String
  | .spring => "S"
  | .fall => "F"
  | .winter => "W"

def typeChar : PhaseType → String
  | .T => "T"
  | .M => "M"
  | .R => "R"
  | .A => "A"

/-- Modelled from the spec: the short form, such as S1901T. -/
def shortPhase (p : Phase) : String :=
  seasonChar p.season ++ Nat.repr p.year ++ typeChar p.ptype

/-- Modelled from the spec: one power as process() needs it — its name,
whether a non-dummy controller is bound, and its unit and centre counts (a
power is eliminated when it holds zero units and zero centres). -/
structure PowerInfo where
  name : String
  controlled : Bool
  units : Nat
  centers : Nat
deriving DecidableEq

/-- Modelled from the spec: the ServerGame fields the process tick reads and
writes — status, rules, current phase, the powers, the talk sub-state, and
whether a retreats or adjustments phase would be non-empty (the engine-side
facts the skip policy consults). -/
structure ServerGameState where
  status : String
  rules : List String
  phase : Phase
  powers : List PowerInfo
  talk_round : Nat
  talk_round_state : String
  talk_ready : List String
  talk_held_messages : List String
  talk_num_rounds : Nat
  has_pending_retreats : Bool
  has_pending_adjustments : Bool
deriving DecidableEq

/-- Modelled from the spec (4.E round_complete): true iff the phase type is
T, the sub-state is round_open or orders_open, and every controlled
non-eliminated power has signalled ready; trivially true in a solitaire game
where no human controls any power. -/
def talk_round_complete (g : ServerGameState) : Bool :=
  (g.phase.ptype = PhaseType.T) &&
  (g.talk_round_state = "round_open" || g.talk_round_state = "orders_open") &&
  g.powers.all (fun p =>
    !p.controlled || (p.units = 0 && p.centers = 0) || p.name ∈ g.talk_ready)

/-- Modelled from the spec (4.D skip policy): NO_TALK skips every TALK
phase, and unless DONT_SKIP_PHASES is in the rules an empty RETREATS or
ADJUSTMENTS phase is skipped. -/
def shouldSkip (g : ServerGameState) (p : Phase) : Bool :=
  ((p.ptype = PhaseType.T) && "NO_TALK" ∈ g.rules) ||
  ("DONT_SKIP_PHASES" ∉ g.rules &&
    (((p.ptype = PhaseType.R) && !g.has_pending_retreats) ||
      ((p.ptype = PhaseType.A) && !g.has_pending_adjustments)))

/-- Modelled from the spec: keep advancing past skippable phases; the fuel
bounds the walk (a MOVEMENT phase, never skipped, is always reached within
a year). -/
def advanceSkipping (g : ServerGameState) : Nat → Phase → Phase
  | 0, p => p
  | fuel + 1, p =>
    let q := findNextPhase p
    if shouldSkip g q then advanceSkipping g fuel q else q

/-- Modelled from the spec (4.F steps 2 and 3): the engine's
phase-processing primitive advances the phase applying the skip policy and
returns (previous_phase_data, current_phase_data, kicked_powers); the phase
data proper is projected to the short phase name it is keyed by. -/
def engineProcess (g : ServerGameState) :
    ServerGameState × (Option String × Option String × Option String) :=
  let next := advanceSkipping g 8 g.phase
  ({ g with phase := next }, (some (shortPhase g.phase), some (shortPhase next), none))

/-- Modelled from the spec (4.E and 4.F): one process() tick of a
ServerGame.  An inactive game refuses the tick with a null triple; during a
TALK phase without NO_TALK the talk sub-machine consumes the tick — opening
round 1 on entry, advancing rounds and then opening orders while
round_complete holds, and on completion in orders_open resetting the talk
state and advancing the phase clock past T — returning (None, None, None)
whenever the phase did not advance; otherwise the engine primitive runs. -/
def process (g : ServerGameState) :
    ServerGameState × (Option String × Option String × Option String) :=
  if g.status ≠ "active" then (g, (none, none, none))
  else if (g.phase.ptype = PhaseType.T) && "NO_TALK" ∉ g.rules then
    if (g.talk_round = 0) && (g.talk_round_state = "") then
      ({ g with talk_round := 1, talk_round_state := "round_open", talk_ready := [] },
        (none, none, none))
    else if talk_round_complete g then
      if g.talk_round_state = "orders_open" then
        engineProcess
          { g with
            talk_round := 0
            talk_round_state := ""
            talk_ready := []
            talk_held_messages := [] }
      else if g.talk_round < g.talk_num_rounds then
        ({ g with
            talk_round := g.talk_round + 1
            talk_round_state := "round_open"
            talk_ready := [] }, (none, none, none))
      else
        ({ g with talk_round_state := "orders_open", talk_ready := [] },
          (none, none, none))
    else (g, (none, none, none))
  else engineProcess g

/-- Concrete uncontrolled powers for the closed witness of the talk-cycle
theorem. -/
def powersSolW : List PowerInfo :=
  [{ name := "AUSTRIA", controlled := false, units := 3, centers := 3 },
    { name := "ENGLAND", controlled := false, units := 3, centers := 3 },
    { name := "FRANCE", controlled := false, units := 3, centers := 3 }]

/-- Discriminates the two constructors of `Except` as a Boolean. -/
def exceptOk {ε α : Type} : Except ε α → Bool
  | .ok _ => true
  | .error _ => false

-- THEOREMS

theorem lookupA_setA_self {κ β : Type} [DecidableEq κ] (k : κ) (v : β) (l : List (κ × β)) :
    lookupA k (setA k v l) = some v := by
  induction l with
  | nil => simp [setA, lookupA]
  | cons p rest ih =>
    obtain ⟨k₁, v₁⟩ := p
    by_cases h : k₁ = k
    · subst h; simp [setA, lookupA]
    · simp [setA, lookupA, h, ih]

theorem lookupA_setA_ne {κ β : Type} [DecidableEq κ] {k k₂ : κ} (v : β) (l : List (κ × β))
    (hne : k₂ ≠ k) : lookupA k₂ (setA k v l) = lookupA k₂ l := by
  induction l with
  | nil => simp [setA, lookupA, Ne.symm hne]
  | cons p rest ih =>
    obtain ⟨k₁, v₁⟩ := p
    by_cases h : k₁ = k
    · subst h; simp [setA, lookupA, Ne.symm hne]
    · simp [setA, lookupA, h, ih]

theorem lookupA_removeA_self {κ β : Type} [DecidableEq κ] (k : κ) (l : List (κ × β)) :
    lookupA k (removeA k l) = none := by
  induction l with
  | nil => simp [removeA, lookupA]
  | cons p rest ih =>
    obtain ⟨k₁, v₁⟩ := p
    by_cases h : k₁ = k
    · simp [removeA, h, ih]
    · simp [removeA, lookupA, h, ih]

theorem lookupA_removeA_ne {κ β : Type} [DecidableEq κ] {k k₂ : κ} (l : List (κ × β))
    (hne : k₂ ≠ k) : lookupA k₂ (removeA k l) = lookupA k₂ l := by
  induction l with
  | nil => simp [removeA]
  | cons p rest ih =>
    obtain ⟨k₁, v₁⟩ := p
    by_cases h : k₁ = k
    · subst h; simp [removeA, lookupA, Ne.symm hne, ih]
    · simp [removeA, lookupA, h, ih]

theorem lookupA_mem {κ β : Type} [DecidableEq κ] {k : κ} {v : β} {l : List (κ × β)}
    (h : lookupA k l = some v) : (k, v) ∈ l := by
  induction l with
  | nil => simp [lookupA] at h
  | cons p rest ih =>
    obtain ⟨k₁, v₁⟩ := p
    by_cases hk : k₁ = k
    · subst hk
      simp [lookupA] at h
      simp [h]
    · simp [lookupA, hk] at h
      exact List.mem_cons_of_mem _ (ih h)

theorem not_mem_filter_ne {α : Type} [DecidableEq α] (t : α) (l : List α) :
    t ∉ l.filter (fun x => x ≠ t) := by
  simp [List.mem_filter]

/-- C2: `Users.has_token` returns true exactly when the HMAC signature
verifies under the server secret key and the token is unexpired, its jti is
not in the revocation set, and its sub claim is a registered username (so in
particular a revoked token is never valid). -/
theorem has_token_iff_valid (now : Nat) (st : UsersState) (t : Token) :
    has_token now st t = true ↔
      (t.sigValid = true ∧ now < t.claims.exp ∧
        t.claims.jti ∉ st.revoked_tokens ∧ (lookupA t.claims.sub st.users).isSome = true) := by
  unfold has_token decode_token
  rcases hs : t.sigValid with _ | _
  · simp [hs]
  · by_cases hexp : t.claims.exp ≤ now
    · simp [hexp, Nat.not_lt.mpr hexp]
    · by_cases hrev : t.claims.jti ∈ st.revoked_tokens
      · simp [hexp, hrev]
      · simp [hexp, hrev, Nat.lt_of_not_le (by simpa using hexp)]

theorem has_token_connection_irrelevant (now : Nat) (st : UsersState) (t : Token)
    (t2c : List (Token × Nat)) (c2t : List (Nat × List Token)) :
    has_token now
      { st with token_to_connection_handler := t2c, connection_handler_to_tokens := c2t } t =
    has_token now st t := rfl

theorem get_connection_handler_update (st : UsersState) (t : Token)
    (t2c : List (Token × Nat)) (c2t : List (Nat × List Token)) :
    get_connection_handler
      { st with token_to_connection_handler := t2c, connection_handler_to_tokens := c2t } t =
    lookupA t t2c := rfl

theorem disconnect_token_revoked (t : Token) (st : UsersState) :
    (disconnect_token t st).revoked_tokens = get_token_id t :: st.revoked_tokens := by
  rcases hb : lookupA t st.token_to_connection_handler with _ | h₀ <;>
    simp [disconnect_token, hb]

theorem disconnect_token_users (t : Token) (st : UsersState) :
    (disconnect_token t st).users = st.users := by
  rcases hb : lookupA t st.token_to_connection_handler with _ | h₀ <;>
    simp [disconnect_token, hb]

theorem get_connection_handler_disconnect (t : Token) (st : UsersState) :
    get_connection_handler (disconnect_token t st) t = none := by
  unfold disconnect_token get_connection_handler
  rcases hb : lookupA t st.token_to_connection_handler with _ | h₀
  · simp [hb]
  · simp [hb, lookupA_removeA_self]

theorem disconnect_token_c2t_clean (t : Token) (st : UsersState)
    (hcoh : ∀ p ∈ st.connection_handler_to_tokens, t ∈ p.2 →
        lookupA t st.token_to_connection_handler = some p.1) :
    ∀ h toks, lookupA h (disconnect_token t st).connection_handler_to_tokens = some toks →
      t ∉ toks := by
  intro h toks hl ht
  unfold disconnect_token at hl
  rcases hb : lookupA t st.token_to_connection_handler with _ | h₀ <;> simp [hb] at hl
  · exact absurd (hcoh _ (lookupA_mem hl) ht) (by simp [hb])
  · rcases hb₂ : lookupA h₀ st.connection_handler_to_tokens with _ | toks₀ <;> simp [hb₂] at hl
    · have h2 := hcoh _ (lookupA_mem hl) ht
      simp [hb] at h2
      have hh : h = h₀ := by omega
      rw [hh, hb₂] at hl
      exact Option.noConfusion hl
    · by_cases hemp : ∀ a ∈ toks₀, a = t
      · rw [if_pos hemp] at hl
        by_cases hh : h = h₀
        · rw [hh, lookupA_removeA_self] at hl
          exact Option.noConfusion hl
        · rw [lookupA_removeA_ne _ hh] at hl
          have h2 := hcoh _ (lookupA_mem hl) ht
          simp [hb] at h2
          omega
      · rw [if_neg hemp] at hl
        by_cases hh : h = h₀
        · rw [hh, lookupA_setA_self] at hl
          have htoks := (Option.some.injEq _ _).mp hl
          rw [← htoks] at ht
          simp [List.mem_filter] at ht
        · rw [lookupA_setA_ne _ _ hh] at hl
          have h2 := hcoh _ (lookupA_mem hl) ht
          simp [hb] at h2
          omega

/-- C7: a token minted for a registered user with positive remaining lifetime
(signature valid, unexpired, fresh jti) satisfies has_token; after
disconnect_token it fails has_token even before expiry (the clock has not
moved), its jti is in the revocation set, and it is bound to no connection
handler. -/
theorem mint_then_disconnect (now : Nat) (st : UsersState) (t : Token)
    (hsig : t.sigValid = true) (hexp : now < t.claims.exp)
    (hfresh : t.claims.jti ∉ st.revoked_tokens)
    (hsub : (lookupA t.claims.sub st.users).isSome = true)
    (hcoh : ∀ p ∈ st.connection_handler_to_tokens, t ∈ p.2 →
        lookupA t st.token_to_connection_handler = some p.1) :
    has_token now st t = true ∧
    has_token now (disconnect_token t st) t = false ∧
    t.claims.jti ∈ (disconnect_token t st).revoked_tokens ∧
    get_connection_handler (disconnect_token t st) t = none ∧
    (∀ h toks, lookupA h (disconnect_token t st).connection_handler_to_tokens = some toks →
        t ∉ toks) := by
  refine ⟨?_, ?_, ?_, get_connection_handler_disconnect t st,
      disconnect_token_c2t_clean t st hcoh⟩
  · simp [has_token, decode_token, hsig, Nat.not_le.mpr hexp, hfresh, hsub]
  · simp [has_token, decode_token, hsig, Nat.not_le.mpr hexp, disconnect_token_revoked,
      get_token_id]
  · rw [disconnect_token_revoked]
    exact List.mem_cons_self _ _

/-- Closed witness for the C7 theorem at a concrete registry state. -/
theorem mint_then_disconnect_witness :
    (tok₀.sigValid = true ∧ 10 < tok₀.claims.exp ∧ tok₀.claims.jti ∉ st₀.revoked_tokens ∧
      (lookupA tok₀.claims.sub st₀.users).isSome = true) ∧
    has_token 10 st₀ tok₀ = true ∧
    has_token 10 (disconnect_token tok₀ st₀) tok₀ = false ∧
    tok₀.claims.jti ∈ (disconnect_token tok₀ st₀).revoked_tokens ∧
    get_connection_handler (disconnect_token tok₀ st₀) tok₀ = none ∧
    (∀ h toks,
        lookupA h (disconnect_token tok₀ st₀).connection_handler_to_tokens = some toks →
        tok₀ ∉ toks) :=
  ⟨by decide,
    mint_then_disconnect 10 st₀ tok₀ (by decide) (by decide) (by decide) (by decide)
      (by decide)⟩

/-- C6 counterexample: at the concrete state `st₀`, the token `tok₀` is valid
and bound to handler 1, yet `Users.attach_connection_handler` with the
different handler 2 does not succeed — the assert raises instead of letting
the latest attach win. -/
theorem attach_conflicting_handle_raises :
    has_token 10 st₀ tok₀ = true ∧
    get_connection_handler st₀ tok₀ = some 1 ∧
    exceptOk (attach_connection_handler 10 tok₀ 2 st₀) = false := by
  decide

/-- C6 (amended): for a valid token bound to handler h₁, a direct
`Users.attach_connection_handler` call with a different handler h₂ raises an
assertion error; the latest-attach-wins behaviour holds only through the
`_attach_token` helper of lobby.py/http_api.py, which first detaches the
token from its previous handler and then succeeds in binding it to h₂. -/
theorem attach_token_latest_wins (now : Nat) (st : UsersState) (t : Token) (h₁ h₂ : Nat)
    (hvalid : has_token now st t = true)
    (hbound : get_connection_handler st t = some h₁)
    (hne : h₂ ≠ h₁) :
    exceptOk (attach_connection_handler now t h₂ st) = false ∧
    ∃ st₂, lobby_attach_token now t h₂ st = .ok st₂ ∧
      get_connection_handler st₂ t = some h₂ := by
  constructor
  · unfold attach_connection_handler
    rw [hvalid, hbound]
    simp [Ne.symm hne, exceptOk]
  · unfold lobby_attach_token
    rw [hbound]
    dsimp only
    rw [if_neg (Ne.symm hne)]
    unfold attach_connection_handler
    rw [has_token_connection_irrelevant, hvalid, if_pos rfl,
      get_connection_handler_update, lookupA_removeA_self]
    dsimp only
    refine ⟨_, rfl, ?_⟩
    simp [get_connection_handler, lookupA_setA_self]

/-- Closed witness for the amended C6 theorem at a concrete registry state. -/
theorem attach_token_latest_wins_witness :
    (has_token 10 st₀ tok₀ = true ∧ get_connection_handler st₀ tok₀ = some 1 ∧ (2 : Nat) ≠ 1) ∧
    exceptOk (attach_connection_handler 10 tok₀ 2 st₀) = false ∧
    (∃ st₂, lobby_attach_token 10 tok₀ 2 st₀ = .ok st₂ ∧
      get_connection_handler st₂ tok₀ = some 2) :=
  ⟨by decide, attach_token_latest_wins 10 st₀ tok₀ 1 2 (by decide) (by decide) (by decide)⟩

theorem lookupA_append_phase (u g e : String) (store : PlayerLogStore) :
    lookupA (u, g) (append_phase u g e store) =
      some ((lookupA (u, g) store).getD [] ++ [e]) := by
  simp [append_phase, lookupA_setA_self]

theorem lookupA_append_all (u g : String) (entries : List String) (store : PlayerLogStore)
    (hne : entries ≠ []) :
    lookupA (u, g) (append_all u g entries store) =
      some ((lookupA (u, g) store).getD [] ++ entries) := by
  induction entries generalizing store with
  | nil => exact absurd rfl hne
  | cons e rest ih =>
    by_cases hr : rest = []
    · subst hr
      simp [append_all, lookupA_append_phase]
    · have hstep := ih (append_phase u g e store) hr
      simp only [append_all, List.foldl_cons] at hstep ⊢
      rw [hstep, lookupA_append_phase]
      simp

theorem readLoop_no_limit (offset : Nat) (lines : List String)
    (hne : ∀ e ∈ lines, e ≠ "") : ∀ i cnt,
    readLoop none offset i cnt lines = lines.drop (offset - i) := by
  induction lines with
  | nil => intro i cnt; simp [readLoop]
  | cons line rest ih =>
    intro i cnt
    have hline : line ≠ "" := hne line (by simp)
    have hrest : ∀ e ∈ rest, e ≠ "" := fun e he => hne e (by simp [he])
    by_cases hi : i < offset
    · have hd : offset - i = (offset - (i + 1)) + 1 := by omega
      simp only [readLoop]
      rw [if_pos hi, ih hrest (i + 1) cnt, hd, List.drop_succ_cons]
    · have h0 : offset - i = 0 := by omega
      have h1 : offset - (i + 1) = 0 := by omega
      simp only [readLoop]
      rw [if_neg hi]
      simp [limitReached, hline, ih hrest (i + 1) (cnt + 1), h0, h1]

theorem readLoop_with_limit (l offset : Nat) (lines : List String)
    (hne : ∀ e ∈ lines, e ≠ "") : ∀ i cnt,
    readLoop (some l) offset i cnt lines = (lines.drop (offset - i)).take (l - cnt) := by
  induction lines with
  | nil => intro i cnt; simp [readLoop]
  | cons line rest ih =>
    intro i cnt
    have hline : line ≠ "" := hne line (by simp)
    have hrest : ∀ e ∈ rest, e ≠ "" := fun e he => hne e (by simp [he])
    by_cases hi : i < offset
    · have hd : offset - i = (offset - (i + 1)) + 1 := by omega
      simp only [readLoop]
      rw [if_pos hi, ih hrest (i + 1) cnt, hd, List.drop_succ_cons]
    · have h0 : offset - i = 0 := by omega
      have h1 : offset - (i + 1) = 0 := by omega
      simp only [readLoop]
      rw [if_neg hi]
      by_cases hl : l ≤ cnt
      · have htake : l - cnt = 0 := by omega
        simp [limitReached, hl, h0, htake]
      · have htake : l - cnt = (l - (cnt + 1)) + 1 := by omega
        simp [limitReached, hl, hline, ih hrest (i + 1) (cnt + 1), h0, h1, htake]

/-- C8: appending entries in order and reading them back: the full read
returns exactly the appended entries in append order, the paginated read
returns the offset/limit window clipped to the available entries, and
reading a (user, game) pair with no log file returns the empty list rather
than an error.  Entries are serialized JSON records, hence never empty. -/
theorem player_log_read_back (u g : String) (entries : List String)
    (store₀ : PlayerLogStore) (limit offset : Nat)
    (hmissing : lookupA (u, g) store₀ = none)
    (hne : ∀ e ∈ entries, e ≠ "") :
    get_game_log (append_all u g entries store₀) u g none 0 = entries ∧
    get_game_log (append_all u g entries store₀) u g (some limit) offset =
      (entries.drop offset).take limit ∧
    get_game_log store₀ u g none 0 = [] := by
  refine ⟨?_, ?_, by simp [get_game_log, hmissing]⟩
  · by_cases h : entries = []
    · subst h
      simp [append_all, get_game_log, hmissing]
    · have hl := lookupA_append_all u g entries store₀ h
      rw [hmissing] at hl
      simp only [Option.getD_none, List.nil_append] at hl
      simp [get_game_log, hl, readLoop_no_limit 0 entries hne 0 0]
  · by_cases h : entries = []
    · subst h
      simp [append_all, get_game_log, hmissing]
    · have hl := lookupA_append_all u g entries store₀ h
      rw [hmissing] at hl
      simp only [Option.getD_none, List.nil_append] at hl
      simp [get_game_log, hl, readLoop_with_limit limit offset entries hne 0 0]

/-- Closed witness for the C8 theorem at a concrete store. -/
theorem player_log_read_back_witness :
    (lookupA ("alice", "game1") ([] : PlayerLogStore) = none ∧
      ∀ e ∈ ["rec1", "rec2", "rec3"], e ≠ "") ∧
    get_game_log (append_all "alice" "game1" ["rec1", "rec2", "rec3"] [])
        "alice" "game1" none 0 = ["rec1", "rec2", "rec3"] ∧
    get_game_log (append_all "alice" "game1" ["rec1", "rec2", "rec3"] [])
        "alice" "game1" (some 2) 1 = (["rec1", "rec2", "rec3"].drop 1).take 2 ∧
    get_game_log ([] : PlayerLogStore) "alice" "game1" none 0 = [] :=
  ⟨by decide,
    player_log_read_back "alice" "game1" ["rec1", "rec2", "rec3"] [] 2 1 (by decide)
      (by decide)⟩

theorem classifyOrders_aux (obl : List (String × List String)) (orders : List String) :
    ∀ acc : List String × List InvalidOrder,
      orders.foldl
        (fun acc order =>
          if order ∈ allPossible obl then (acc.1 ++ [order], acc.2)
          else (acc.1, acc.2 ++ [mkInvalidOrder obl order])) acc =
      (acc.1 ++ orders.filter (fun o => o ∈ allPossible obl),
        acc.2 ++ (orders.filter (fun o => o ∉ allPossible obl)).map (mkInvalidOrder obl)) := by
  induction orders with
  | nil => intro acc; simp
  | cons o rest ih =>
    intro acc
    by_cases h : o ∈ allPossible obl
    · simp [h, ih]
    · simp [h, ih]

theorem classifyOrders_eq (obl : List (String × List String)) (orders : List String) :
    classifyOrders obl orders =
      (orders.filter (fun o => o ∈ allPossible obl),
        (orders.filter (fun o => o ∉ allPossible obl)).map (mkInvalidOrder obl)) := by
  simpa [classifyOrders] using classifyOrders_aux obl orders ([], [])

theorem mkInvalidOrder_suggestions (obl : List (String × List String)) (o : String)
    (s : List String) (h : (mkInvalidOrder obl o).suggestions = some s) :
    s.length ≤ 5 ∧
      ∃ l os, (pySplit o)[1]? = some l ∧ lookupA l obl = some os ∧ s = os.take 5 := by
  unfold mkInvalidOrder at h
  dsimp only at h
  by_cases hp : (pySplit o).length ≥ 2
  · rw [if_pos hp] at h
    rcases hq : (pySplit o)[1]? with _ | l
    · rw [hq] at h
      exact Option.noConfusion h
    · rw [hq] at h
      dsimp only at h
      rcases hr : lookupA l obl with _ | os
      · rw [hr] at h
        exact Option.noConfusion h
      · rw [hr] at h
        have hs : os.take 5 = s := (Option.some.injEq _ _).mp h
        refine ⟨?_, l, os, rfl, hr, hs.symm⟩
        rw [← hs]
        simp [List.length_take_le 5 os]
  · rw [if_neg hp] at h
    exact Option.noConfusion h

/-- C3: when a POST of orders contains at least one order string outside the
union of possible orders over the orderable locations of the power, the
handler responds 400, issues no SetOrders request (the game state is
unchanged), lists every invalid order with its reason, and any suggestions
attached to an invalid order are at most 5 and all drawn from the legal
orders at the origin location of that order. -/
theorem invalid_orders_rejected (possible : List (String × List String))
    (myLocs orders : List String)
    (hbad : ∃ o ∈ orders, o ∉ allPossible (ordersByLoc possible myLocs)) :
    (orders_post possible myLocs orders).status = 400 ∧
    (orders_post possible myLocs orders).submitted = none ∧
    (∀ o ∈ orders, o ∉ allPossible (ordersByLoc possible myLocs) →
      ∃ io ∈ (orders_post possible myLocs orders).invalid_orders,
        io.order = o ∧ io.reason = "Not in the set of possible orders") ∧
    (∀ io ∈ (orders_post possible myLocs orders).invalid_orders, ∀ s,
      io.suggestions = some s →
        s.length ≤ 5 ∧
        ∃ l os, (pySplit io.order)[1]? = some l ∧
          lookupA l (ordersByLoc possible myLocs) = some os ∧ s = os.take 5) := by
  obtain ⟨o₀, ho₀, hno₀⟩ := hbad
  have hmem : mkInvalidOrder (ordersByLoc possible myLocs) o₀ ∈
      (classifyOrders (ordersByLoc possible myLocs) orders).2 := by
    rw [classifyOrders_eq]
    exact List.mem_map_of_mem _ (List.mem_filter.mpr ⟨ho₀, by simpa using hno₀⟩)
  have hnemp : (classifyOrders (ordersByLoc possible myLocs) orders).2 ≠ [] :=
    List.ne_nil_of_mem hmem
  have hpost : orders_post possible myLocs orders =
      { status := 400,
        invalid_orders := (classifyOrders (ordersByLoc possible myLocs) orders).2,
        valid_orders_accepted := (classifyOrders (ordersByLoc possible myLocs) orders).1,
        submitted := none } := by
    unfold orders_post
    dsimp only
    rw [if_neg hnemp]
  refine ⟨by rw [hpost], by rw [hpost], ?_, ?_⟩
  · intro o ho hno
    refine ⟨mkInvalidOrder (ordersByLoc possible myLocs) o, ?_, rfl, rfl⟩
    rw [hpost]
    rw [classifyOrders_eq]
    exact List.mem_map_of_mem _ (List.mem_filter.mpr ⟨ho, by simpa using hno⟩)
  · intro io hio s hs
    rw [hpost, classifyOrders_eq] at hio
    obtain ⟨o, ho, rfl⟩ := List.mem_map.mp hio
    exact mkInvalidOrder_suggestions _ _ _ hs

/-- Closed witness for the C3 theorem: the order `[A PAR - XYZ]` is not a
possible order for the PAR location, so the submission from the spec
scenario is rejected with status 400 and nothing reaches the game. -/
theorem invalid_orders_rejected_witness :
    (∃ o ∈ ["A PAR - BUR", "A PAR - XYZ"],
      o ∉ allPossible (ordersByLoc
        [("PAR", ["A PAR H", "A PAR - BUR", "A PAR - GAS", "A PAR - PIC"])] ["PAR"])) ∧
    (orders_post [("PAR", ["A PAR H", "A PAR - BUR", "A PAR - GAS", "A PAR - PIC"])]
        ["PAR"] ["A PAR - BUR", "A PAR - XYZ"]).status = 400 ∧
    (orders_post [("PAR", ["A PAR H", "A PAR - BUR", "A PAR - GAS", "A PAR - PIC"])]
        ["PAR"] ["A PAR - BUR", "A PAR - XYZ"]).submitted = none := by
  have h := invalid_orders_rejected
    [("PAR", ["A PAR H", "A PAR - BUR", "A PAR - GAS", "A PAR - PIC"])]
    ["PAR"] ["A PAR - BUR", "A PAR - XYZ"] (by decide)
  exact ⟨by decide, h.1, h.2.1⟩

theorem length_setA_of_mem {κ β : Type} [DecidableEq κ] (k : κ) (v : β) (l : List (κ × β))
    (h : (lookupA k l).isSome = true) : (setA k v l).length = l.length := by
  induction l with
  | nil => simp [lookupA] at h
  | cons p rest ih =>
    obtain ⟨k₁, v₁⟩ := p
    by_cases hk : k₁ = k
    · simp [setA, hk]
    · simp [lookupA, hk] at h
      simp [setA, hk, ih h]

/-- C5: join_game looks the lobby up under the uppercase-stripped code; an
unknown code yields the not-found outcome; a known lobby that is not waiting
fails as already started; a waiting, full lobby fails as full; in a waiting,
non-full lobby a username that already has a player record gets that record
back with its token updated and the player count unchanged; and otherwise a
display name that case-insensitively matches another player's is
rejected. -/
theorem join_game_spec (st : SrvState) (code username display_name : String) (tok : Token) :
    (lookupA (normalizeCode code) st.lobbies = none →
      (join_game st code username display_name tok).1 = .notFound) ∧
    (∀ lobby, lookupA (normalizeCode code) st.lobbies = some lobby →
      lobby.status ≠ "waiting" →
      (join_game st code username display_name tok).1 =
        .failure "Game has already started") ∧
    (∀ lobby, lookupA (normalizeCode code) st.lobbies = some lobby →
      lobby.status = "waiting" → lobby.n_powers ≤ lobby.players.length →
      (join_game st code username display_name tok).1 = .failure "Game is full") ∧
    (∀ lobby existing, lookupA (normalizeCode code) st.lobbies = some lobby →
      lobby.status = "waiting" → lobby.players.length < lobby.n_powers →
      lookupA username lobby.players = some existing →
      (join_game st code username display_name tok).1 =
        .joined
          { lobby with players := setA username { existing with token := tok } lobby.players }
          { existing with token := tok } ∧
      (setA username { existing with token := tok } lobby.players).length =
        lobby.players.length) ∧
    (∀ lobby, lookupA (normalizeCode code) st.lobbies = some lobby →
      lobby.status = "waiting" → lobby.players.length < lobby.n_powers →
      lookupA username lobby.players = none →
      lobby.players.any (fun p => pyLower p.2.display_name = pyLower display_name) = true →
      (join_game st code username display_name tok).1 = .failure "Name is already taken") := by
  refine ⟨?_, ?_, ?_, ?_, ?_⟩
  · intro hnone
    unfold join_game
    dsimp only
    rw [hnone]
  · intro lobby hsome hstatus
    unfold join_game
    dsimp only
    rw [hsome]
    dsimp only
    rw [if_pos hstatus]
  · intro lobby hsome hstatus hfull
    unfold join_game
    dsimp only
    rw [hsome]
    dsimp only
    rw [if_neg (by simp [hstatus]), if_pos hfull]
  · intro lobby existing hsome hstatus hroom hexist
    unfold join_game
    dsimp only
    rw [hsome]
    dsimp only
    rw [if_neg (by simp [hstatus]), if_neg (by omega), hexist]
    exact ⟨rfl, length_setA_of_mem _ _ _ (by simp [hexist])⟩
  · intro lobby hsome hstatus hroom hnew hdup
    unfold join_game
    dsimp only
    rw [hsome]
    dsimp only
    rw [if_neg (by simp [hstatus]), if_neg (by omega), hnew]
    dsimp only
    rw [if_pos hdup]

theorem lookupA_eq_none_iff {κ β : Type} [DecidableEq κ] (k : κ) (l : List (κ × β)) :
    lookupA k l = none ↔ k ∉ l.map Prod.fst := by
  induction l with
  | nil => simp [lookupA]
  | cons p rest ih =>
    obtain ⟨k₁, v₁⟩ := p
    by_cases h : k₁ = k
    · subst h
      simp [lookupA]
    · simp [lookupA, h, ih, Ne.symm h]

theorem map_fst_setA_not_mem {κ β : Type} [DecidableEq κ] (k : κ) (v : β) (l : List (κ × β))
    (h : k ∉ l.map Prod.fst) : (setA k v l).map Prod.fst = l.map Prod.fst ++ [k] := by
  induction l with
  | nil => simp [setA]
  | cons p rest ih =>
    obtain ⟨k₁, v₁⟩ := p
    simp only [List.map_cons, List.mem_cons, not_or] at h
    simp [setA, Ne.symm h.1, ih h.2]

theorem ensure_user_registered_lobbies (u : String) (tok : Token) (st : SrvState) :
    (ensure_user_registered u tok st).lobbies = st.lobbies := by
  unfold ensure_user_registered
  dsimp only
  split <;> split <;> rfl

theorem generateCodeFrom_ok (candidates : Nat → String) (keys : List String) :
    ∀ fuel i code, generateCodeFrom candidates keys i fuel = .ok code →
      (∃ j, code = candidates j) ∧ code ∉ keys := by
  intro fuel
  induction fuel with
  | zero =>
    intro i code h
    simp [generateCodeFrom] at h
  | succ fuel ih =>
    intro i code h
    simp only [generateCodeFrom] at h
    by_cases hm : candidates i ∈ keys
    · rw [if_pos hm] at h
      exact ih (i + 1) code h
    · rw [if_neg hm] at h
      have hc : candidates i = code := by
        injection h
      rw [← hc]
      exact ⟨⟨i, rfl⟩, hm⟩

theorem generateCodeFrom_all_collide (candidates : Nat → String) (keys : List String) :
    ∀ fuel i, (∀ j, i ≤ j → j < i + fuel → candidates j ∈ keys) →
      ∃ e, generateCodeFrom candidates keys i fuel = .error e := by
  intro fuel
  induction fuel with
  | zero => intro i _; exact ⟨_, rfl⟩
  | succ fuel ih =>
    intro i h
    have hm : candidates i ∈ keys := h i (le_refl i) (by omega)
    simp only [generateCodeFrom]
    rw [if_pos hm]
    exact ih (i + 1) (fun j hj1 hj2 => h j (by omega) (by omega))

/-- C9: a code returned by create_game has length exactly 4, uses only
characters of the unambiguous alphabet, and collides with no lobby existing
at creation time — so lobby codes stay pairwise distinct — and creation
fails with an error instead of returning a lobby when 100 consecutive
candidate codes all collide. -/
theorem create_game_code_spec (candidates : Nat → String)
    (maps : List (String × List String)) (st : SrvState)
    (username display_name : String) (tok : Token) (map_name assignment : String)
    (hcand : ∀ i, (candidates i).length = CODE_LENGTH ∧
      ∀ c ∈ (candidates i).toList, c ∈ CODE_ALPHABET) :
    (∀ st₁ lobby player,
      lobby_create_game candidates maps st username display_name tok map_name assignment =
        .ok (st₁, lobby, player) →
      lobby.code.length = CODE_LENGTH ∧
      (∀ c ∈ lobby.code.toList, c ∈ CODE_ALPHABET) ∧
      lookupA lobby.code st.lobbies = none ∧
      ((st.lobbies.map Prod.fst).Nodup → (st₁.lobbies.map Prod.fst).Nodup)) ∧
    ((∀ j, j < 100 → candidates j ∈ st.lobbies.map Prod.fst) →
      ∃ e, lobby_create_game candidates maps st username display_name tok map_name assignment =
        .error e) := by
  constructor
  · intro st₁ lobby player hok
    unfold lobby_create_game at hok
    rcases hg : generate_code candidates (st.lobbies.map Prod.fst) with e | code
    · rw [hg] at hok
      exact Except.noConfusion hok
    · rw [hg] at hok
      dsimp only at hok
      have h := (Except.ok.injEq _ _).mp hok.symm
      simp only [Prod.mk.injEq] at h
      obtain ⟨hst, hlob, hplay⟩ := h
      obtain ⟨⟨j, hj⟩, hnotin⟩ :=
        generateCodeFrom_ok candidates (st.lobbies.map Prod.fst) 100 0 code hg
      have hcode : lobby.code = code := by rw [hlob]
      refine ⟨?_, ?_, ?_, ?_⟩
      · rw [hcode, hj]
        exact (hcand j).1
      · rw [hcode, hj]
        exact (hcand j).2
      · rw [hcode]
        exact (lookupA_eq_none_iff code st.lobbies).mpr hnotin
      · intro hnd
        have hlobbies : st₁.lobbies =
            setA code
              { code := code, map_name := map_name, assignment := assignment,
                n_powers :=
                  match lookupA map_name maps with
                  | some powers => powers.length
                  | none => 7,
                status := "waiting",
                players := [(username,
                  { username := username, display_name := display_name, token := tok,
                    is_host := true, power := none })],
                host_username := username, game_id := none }
              (ensure_user_registered username tok st).lobbies := by
          rw [hst]
        rw [hlobbies, ensure_user_registered_lobbies,
          map_fst_setA_not_mem code _ st.lobbies hnotin]
        simp [List.nodup_append, hnd, hnotin]
  · intro hall
    obtain ⟨e, he⟩ := generateCodeFrom_all_collide candidates (st.lobbies.map Prod.fst) 100 0
      (fun j hj1 hj2 => hall j (by omega))
    refine ⟨e, ?_⟩
    unfold lobby_create_game generate_code
    rw [show generateCodeFrom candidates (st.lobbies.map Prod.fst) 0 100 = .error e from he]

theorem assignPowers_powers (ps : List (String × LobbyPlayer)) :
    ∀ pws : List String, pws.length = ps.length →
      (assignPowers ps pws).map (fun p => p.2.power) = pws.map some := by
  induction ps with
  | nil =>
    intro pws hlen
    cases pws with
    | nil => simp [assignPowers]
    | cons pw rest => simp at hlen
  | cons p ps ih =>
    intro pws hlen
    obtain ⟨k, pl⟩ := p
    cases pws with
    | nil => simp at hlen
    | cons pw pwrest =>
      simp only [assignPowers, List.map_cons]
      rw [ih pwrest (by simpa using hlen)]

theorem assignPowers_mem (ps : List (String × LobbyPlayer)) :
    ∀ pws : List String, pws.length = ps.length →
      ∀ q ∈ assignPowers ps pws, ∃ pw ∈ pws, q.2.power = some pw := by
  induction ps with
  | nil =>
    intro pws hlen
    cases pws with
    | nil => simp [assignPowers]
    | cons pw rest => simp at hlen
  | cons p ps ih =>
    intro pws hlen
    obtain ⟨k, pl⟩ := p
    cases pws with
    | nil => simp at hlen
    | cons pw pwrest =>
      intro q hq
      simp only [assignPowers, List.mem_cons] at hq
      rcases hq with rfl | hq
      · exact ⟨pw, by simp, rfl⟩
      · obtain ⟨pw₂, hpw₂, hq₂⟩ := ih pwrest (by simpa using hlen) q hq
        exact ⟨pw₂, by simp [hpw₂], hq₂⟩

/-- C4: start_game raises unless the caller is the recorded host and the
lobby is waiting (so a lobby is started at most once); on success the lobby
is stored as started with game_id equal to "game_" plus the code, and every
player carries a distinct power drawn from the power list of the map; and
when an engine interaction (game creation or a player join) fails the error
propagates and the stored lobby status remains waiting. -/
theorem start_game_spec (engine : EngineCall → Except String Unit)
    (sample : List String → Nat → Option (List String))
    (maps : List (String × List String)) (lobbies : List (String × GameLobby))
    (code username : String) (lobby : GameLobby)
    (hlook : lookupA (normalizeCode code) lobbies = some lobby)
    (hassign : lobby.assignment = "random")
    (hsample : ∀ pop k l, sample pop k = some l →
      l.Nodup ∧ l.length = k ∧ ∀ x ∈ l, x ∈ pop) :
    ((username ≠ lobby.host_username ∨ lobby.status ≠ "waiting") →
      ∃ e, (start_game engine sample maps lobbies code username).1 = .error e) ∧
    (∀ lobby₂, (start_game engine sample maps lobbies code username).1 = .ok lobby₂ →
      lobby₂.status = "started" ∧
      lobby₂.game_id = some ("game_" ++ normalizeCode code) ∧
      lookupA (normalizeCode code) (start_game engine sample maps lobbies code username).2 =
        some lobby₂ ∧
      (lobby₂.players.map (fun p => p.2.power)).Nodup ∧
      ∀ p ∈ lobby₂.players, ∃ pw mapPowers, p.2.power = some pw ∧
        lookupA lobby.map_name maps = some mapPowers ∧ pw ∈ mapPowers) ∧
    (lobby.status = "waiting" →
      ∀ e, (start_game engine sample maps lobbies code username).1 = .error e →
      ∀ lobby₃,
        lookupA (normalizeCode code) (start_game engine sample maps lobbies code username).2 =
          some lobby₃ →
        lobby₃.status = "waiting") := by
  by_cases hhost : username = lobby.host_username
  · by_cases hstat : lobby.status = "waiting"
    · rcases hmapl : lookupA lobby.map_name maps with _ | mapPowers
      · have hres : start_game engine sample maps lobbies code username =
            (.error ("Unknown map: " ++ lobby.map_name), lobbies) := by
          unfold start_game
          dsimp only
          rw [hlook]
          dsimp only
          rw [if_neg (by simp [hhost]), if_neg (by simp [hstat]), hmapl]
        refine ⟨fun h => absurd h (by simp [hhost, hstat]), ?_, ?_⟩
        · intro lobby₂ h2
          rw [hres] at h2
          exact Except.noConfusion h2
        · intro _ e _ lobby₃ hl3
          rw [hres] at hl3
          dsimp only at hl3
          rw [hlook] at hl3
          have : lobby = lobby₃ := by injection hl3
          rw [← this, hstat]
      · rcases hsmp : sample (pySorted mapPowers) lobby.players.length with _ | pws
        · have hres : start_game engine sample maps lobbies code username =
              (.error "Sample larger than population or is negative", lobbies) := by
            unfold start_game
            dsimp only
            rw [hlook]
            dsimp only
            rw [if_neg (by simp [hhost]), if_neg (by simp [hstat]), hmapl]
            dsimp only
            rw [if_pos hassign, hsmp]
          refine ⟨fun h => absurd h (by simp [hhost, hstat]), ?_, ?_⟩
          · intro lobby₂ h2
            rw [hres] at h2
            exact Except.noConfusion h2
          · intro _ e _ lobby₃ hl3
            rw [hres] at hl3
            dsimp only at hl3
            rw [hlook] at hl3
            have : lobby = lobby₃ := by injection hl3
            rw [← this, hstat]
        · rcases heng : engine (.createGame ("game_" ++ normalizeCode code)
              (assignPowers lobby.players pws).length lobby.map_name ["POWER_CHOICE"])
            with e | u
          · have hres : start_game engine sample maps lobbies code username =
                (.error ("Failed to create engine game: " ++ e),
                  setA (normalizeCode code)
                    { lobby with players := assignPowers lobby.players pws } lobbies) := by
              unfold start_game
              dsimp only
              rw [hlook]
              dsimp only
              rw [if_neg (by simp [hhost]), if_neg (by simp [hstat]), hmapl]
              dsimp only
              rw [if_pos hassign, hsmp]
              dsimp only
              rw [heng]
            refine ⟨fun h => absurd h (by simp [hhost, hstat]), ?_, ?_⟩
            · intro lobby₂ h2
              rw [hres] at h2
              exact Except.noConfusion h2
            · intro _ e₂ _ lobby₃ hl3
              rw [hres] at hl3
              dsimp only at hl3
              rw [lookupA_setA_self] at hl3
              have : { lobby with players := assignPowers lobby.players pws } = lobby₃ := by
                injection hl3
              rw [← this]
              exact hstat
          · rcases hjoin : joinAll engine ("game_" ++ normalizeCode code)
                ((assignPowers lobby.players pws).map Prod.snd) with e | u₂
            · have hres : start_game engine sample maps lobbies code username =
                  (.error e,
                    setA (normalizeCode code)
                      { lobby with players := assignPowers lobby.players pws } lobbies) := by
                unfold start_game
                dsimp only
                rw [hlook]
                dsimp only
                rw [if_neg (by simp [hhost]), if_neg (by simp [hstat]), hmapl]
                dsimp only
                rw [if_pos hassign, hsmp]
                dsimp only
                rw [heng]
                dsimp only
                rw [hjoin]
              refine ⟨fun h => absurd h (by simp [hhost, hstat]), ?_, ?_⟩
              · intro lobby₂ h2
                rw [hres] at h2
                exact Except.noConfusion h2
              · intro _ e₂ _ lobby₃ hl3
                rw [hres] at hl3
                dsimp only at hl3
                rw [lookupA_setA_self] at hl3
                have : { lobby with players := assignPowers lobby.players pws } = lobby₃ := by
                  injection hl3
                rw [← this]
                exact hstat
            · obtain ⟨hnd, hlen, hmem⟩ := hsample _ _ _ hsmp
              have hres : start_game engine sample maps lobbies code username =
                  (.ok { lobby with
                          players := assignPowers lobby.players pws
                          status := "started"
                          game_id := some ("game_" ++ normalizeCode code) },
                    setA (normalizeCode code)
                      { lobby with
                        players := assignPowers lobby.players pws
                        status := "started"
                        game_id := some ("game_" ++ normalizeCode code) }
                      (setA (normalizeCode code)
                        { lobby with players := assignPowers lobby.players pws } lobbies)) := by
                unfold start_game
                dsimp only
                rw [hlook]
                dsimp only
                rw [if_neg (by simp [hhost]), if_neg (by simp [hstat]), hmapl]
                dsimp only
                rw [if_pos hassign, hsmp]
                dsimp only
                rw [heng]
                dsimp only
                rw [hjoin]
              refine ⟨fun h => absurd h (by simp [hhost, hstat]), ?_, ?_⟩
              · intro lobby₂ h2
                rw [hres] at h2
                have hlob₂ : { lobby with
                    players := assignPowers lobby.players pws
                    status := "started"
                    game_id := some ("game_" ++ normalizeCode code) } = lobby₂ := by
                  injection h2
                refine ⟨by rw [← hlob₂], by rw [← hlob₂], ?_, ?_, ?_⟩
                · rw [hres]
                  dsimp only
                  rw [lookupA_setA_self, hlob₂]
                · rw [← hlob₂]
                  dsimp only
                  rw [assignPowers_powers lobby.players pws hlen]
                  exact hnd.map (fun a b hab => Option.some_injective _ hab)
                · intro p hp
                  rw [← hlob₂] at hp
                  dsimp only at hp
                  obtain ⟨pw, hpw, hps⟩ := assignPowers_mem lobby.players pws hlen p hp
                  refine ⟨pw, mapPowers, hps, rfl, ?_⟩
                  have := hmem pw hpw
                  simpa [pySorted, List.mem_mergeSort] using this
              · intro _ e₂ he₂
                rw [hres] at he₂
                exact Except.noConfusion he₂
    · have hres : start_game engine sample maps lobbies code username =
          (.error "Game has already started", lobbies) := by
        unfold start_game
        dsimp only
        rw [hlook]
        dsimp only
        rw [if_neg (by simp [hhost]), if_pos hstat]
      refine ⟨fun _ => ⟨_, by rw [hres]⟩, ?_, ?_⟩
      · intro lobby₂ h2
        rw [hres] at h2
        exact Except.noConfusion h2
      · intro hwait
        exact absurd hwait hstat
  · have hres : start_game engine sample maps lobbies code username =
        (.error "Only the host can start the game", lobbies) := by
      unfold start_game
      dsimp only
      rw [hlook]
      dsimp only
      rw [if_pos hhost]
    refine ⟨fun _ => ⟨_, by rw [hres]⟩, ?_, ?_⟩
    · intro lobby₂ h2
      rw [hres] at h2
      exact Except.noConfusion h2
    · intro hwait e _ lobby₃ hl3
      rw [hres] at hl3
      dsimp only at hl3
      rw [hlook] at hl3
      have : lobby = lobby₃ := by injection hl3
      rw [← this]
      exact hwait

theorem sampleW_contract : ∀ pop k l, sampleW pop k = some l →
    l.Nodup ∧ l.length = k ∧ ∀ x ∈ l, x ∈ pop := by
  intro pop k l h
  unfold sampleW at h
  by_cases hc : k ≤ pop.length ∧ pop.Nodup
  · rw [if_pos hc] at h
    have ht : pop.take k = l := by injection h
    rw [← ht]
    refine ⟨(List.take_sublist k pop).nodup hc.2, ?_, ?_⟩
    · simp [List.length_take, Nat.min_eq_left hc.1]
    · intro x hx
      exact (List.take_sublist k pop).subset hx
  · rw [if_neg hc] at h
    exact Option.noConfusion h

/-- Closed witness for the C5 theorem: each clause of join_game_spec applied
at a concrete server state. -/
theorem join_game_spec_witness :
    (join_game srvW "zzzz" "u" "Disp" tokW₂).1 = .notFound ∧
    (join_game srvW "strt" "u" "Disp" tokW₂).1 = .failure "Game has already started" ∧
    (join_game srvW "full" "u" "Disp" tokW₂).1 = .failure "Game is full" ∧
    ((join_game srvW "game" "host" "Host Name" tokW₂).1 =
        .joined
          { lobbyWaitW with
            players := setA "host" { hostPW with token := tokW₂ } lobbyWaitW.players }
          { hostPW with token := tokW₂ } ∧
      (setA "host" { hostPW with token := tokW₂ } lobbyWaitW.players).length =
        lobbyWaitW.players.length) ∧
    (join_game srvW "game" "newbie" "HOST NAME" tokW₂).1 = .failure "Name is already taken" :=
  ⟨(join_game_spec srvW "zzzz" "u" "Disp" tokW₂).1 (by decide),
    (join_game_spec srvW "strt" "u" "Disp" tokW₂).2.1 lobbyStartedW (by decide) (by decide),
    (join_game_spec srvW "full" "u" "Disp" tokW₂).2.2.1 lobbyFullW (by decide) (by decide)
      (by decide),
    (join_game_spec srvW "game" "host" "Host Name" tokW₂).2.2.2.1 lobbyWaitW hostPW
      (by decide) (by decide) (by decide) (by decide),
    (join_game_spec srvW "game" "newbie" "HOST NAME" tokW₂).2.2.2.2 lobbyWaitW
      (by decide) (by decide) (by decide) (by decide) (by decide)⟩

theorem candW_contract :
    ∀ i, (candW i).length = CODE_LENGTH ∧ ∀ c ∈ (candW i).toList, c ∈ CODE_ALPHABET := by
  intro i
  show ("QZXV" : String).length = CODE_LENGTH ∧
    ∀ c ∈ ("QZXV" : String).toList, c ∈ CODE_ALPHABET
  decide

/-- Closed witness for the C9 theorem at a concrete server state and
candidate stream. -/
theorem create_game_code_spec_witness :
    (∀ i, (candW i).length = CODE_LENGTH ∧ ∀ c ∈ (candW i).toList, c ∈ CODE_ALPHABET) ∧
    (∀ st₁ lobby player,
      lobby_create_game candW mapsW srvW "carol" "Carol" tokW₂ "standard" "random" =
        .ok (st₁, lobby, player) →
      lobby.code.length = CODE_LENGTH ∧
      (∀ c ∈ lobby.code.toList, c ∈ CODE_ALPHABET) ∧
      lookupA lobby.code srvW.lobbies = none ∧
      ((srvW.lobbies.map Prod.fst).Nodup → (st₁.lobbies.map Prod.fst).Nodup)) ∧
    ((∀ j, j < 100 → candW j ∈ srvW.lobbies.map Prod.fst) →
      ∃ e, lobby_create_game candW mapsW srvW "carol" "Carol" tokW₂ "standard" "random" =
        .error e) :=
  ⟨candW_contract,
    (create_game_code_spec candW mapsW srvW "carol" "Carol" tokW₂ "standard" "random"
      candW_contract).1,
    (create_game_code_spec candW mapsW srvW "carol" "Carol" tokW₂ "standard" "random"
      candW_contract).2⟩

/-- Closed witness for the C4 theorem at a concrete lobby, with a concrete
sample function satisfying the random.sample contract and an engine oracle
that accepts every request. -/
theorem start_game_spec_witness :
    (lookupA (normalizeCode "game") srvW.lobbies = some lobbyWaitW ∧
      lobbyWaitW.assignment = "random" ∧
      (∀ pop k l, sampleW pop k = some l →
        l.Nodup ∧ l.length = k ∧ ∀ x ∈ l, x ∈ pop)) ∧
    (((("host" : String) ≠ lobbyWaitW.host_username ∨ lobbyWaitW.status ≠ "waiting") →
      ∃ e, (start_game engineOkW sampleW mapsW srvW.lobbies "game" "host").1 = .error e) ∧
    (∀ lobby₂, (start_game engineOkW sampleW mapsW srvW.lobbies "game" "host").1 = .ok lobby₂ →
      lobby₂.status = "started" ∧
      lobby₂.game_id = some ("game_" ++ normalizeCode "game") ∧
      lookupA (normalizeCode "game")
          (start_game engineOkW sampleW mapsW srvW.lobbies "game" "host").2 = some lobby₂ ∧
      (lobby₂.players.map (fun p => p.2.power)).Nodup ∧
      ∀ p ∈ lobby₂.players, ∃ pw mapPowers, p.2.power = some pw ∧
        lookupA lobbyWaitW.map_name mapsW = some mapPowers ∧ pw ∈ mapPowers) ∧
    (lobbyWaitW.status = "waiting" →
      ∀ e, (start_game engineOkW sampleW mapsW srvW.lobbies "game" "host").1 = .error e →
      ∀ lobby₃,
        lookupA (normalizeCode "game")
            (start_game engineOkW sampleW mapsW srvW.lobbies "game" "host").2 = some lobby₃ →
        lobby₃.status = "waiting")) :=
  ⟨⟨by decide, by decide, sampleW_contract⟩,
    start_game_spec engineOkW sampleW mapsW srvW.lobbies "game" "host" lobbyWaitW
      (by decide) (by decide) sampleW_contract⟩

theorem connect_user_users (t : Token) (conn : Nat) (st : UsersState) :
    (connect_user t conn st).users = st.users := rfl

theorem derive_username_ne_empty (dn : String) (h : dn ≠ "") : derive_username dn ≠ "" := by
  intro hcon
  apply h
  have h1 := congrArg String.data hcon
  simp [derive_username, pyLower, List.map_eq_nil_iff] at h1
  cases dn with
  | mk data =>
    dsimp only at h1
    rw [h1]

/-- C10: an account created via POST /api/auth/identity stores as its
credential the hash of the derived username (lowercased display name with
spaces replaced by underscores) and of no user-chosen secret; consequently a
later POST /api/auth/login for that username with the password equal to the
username itself succeeds: has_user(username, username) is true and the login
takes the success path. -/
theorem identity_credential_is_username_hash (tok tok₂ : Token) (conn conn₂ : Nat)
    (st : UsersState) (display_name : String)
    (hne : pyStrip display_name ≠ "")
    (hlen : (pyStrip display_name).length ≤ 20)
    (hnew : has_username st (derive_username (pyStrip display_name)) = false) :
    (identity_post tok conn st display_name).1 = none ∧
    (identity_post tok conn st display_name).2.2 =
      some (derive_username (pyStrip display_name)) ∧
    lookupA (derive_username (pyStrip display_name))
        (identity_post tok conn st display_name).2.1.users =
      some (hash_password (derive_username (pyStrip display_name))) ∧
    has_user (identity_post tok conn st display_name).2.1
        (derive_username (pyStrip display_name))
        (derive_username (pyStrip display_name)) = true ∧
    (login_post tok₂ conn₂ (identity_post tok conn st display_name).2.1
        (derive_username (pyStrip display_name))
        (derive_username (pyStrip display_name))).1 = none := by
  have hpost : identity_post tok conn st display_name =
      (none,
        connect_user tok conn
          (add_user (derive_username (pyStrip display_name))
            (hash_password (derive_username (pyStrip display_name))) st),
        some (derive_username (pyStrip display_name))) := by
    unfold identity_post
    dsimp only
    rw [if_neg hne, if_neg (by omega), if_neg (by simp [hnew])]
  have hlookup : lookupA (derive_username (pyStrip display_name))
      (identity_post tok conn st display_name).2.1.users =
      some (hash_password (derive_username (pyStrip display_name))) := by
    rw [hpost]
    dsimp only
    rw [connect_user_users]
    unfold add_user
    dsimp only
    exact lookupA_setA_self _ _ _
  have huser : has_user (identity_post tok conn st display_name).2.1
      (derive_username (pyStrip display_name))
      (derive_username (pyStrip display_name)) = true := by
    unfold has_user
    rw [hlookup]
    simp [is_valid_password]
  refine ⟨by rw [hpost], by rw [hpost], hlookup, huser, ?_⟩
  unfold login_post
  rw [if_neg (by simp [derive_username_ne_empty _ hne])]
  have hhave : has_username (identity_post tok conn st display_name).2.1
      (derive_username (pyStrip display_name)) = true := by
    unfold has_username
    rw [hlookup]
    rfl
  rw [hhave, huser]
  simp

/-- Closed witness for the C10 theorem: an identity created from the display
name " Alice Smith " stores the hash of "alice_smith" and can immediately
log in with username and password both "alice_smith". -/
theorem identity_credential_witness :
    (pyStrip " Alice Smith " ≠ "" ∧
      (pyStrip " Alice Smith ").length ≤ 20 ∧
      has_username
        { users := [], administrators := [], revoked_tokens := [],
          token_to_connection_handler := [], connection_handler_to_tokens := [] }
        (derive_username (pyStrip " Alice Smith ")) = false) ∧
    (identity_post tokW 0
        { users := [], administrators := [], revoked_tokens := [],
          token_to_connection_handler := [], connection_handler_to_tokens := [] }
        " Alice Smith ").1 = none ∧
    (identity_post tokW 0
        { users := [], administrators := [], revoked_tokens := [],
          token_to_connection_handler := [], connection_handler_to_tokens := [] }
        " Alice Smith ").2.2 = some (derive_username (pyStrip " Alice Smith ")) ∧
    lookupA (derive_username (pyStrip " Alice Smith "))
        (identity_post tokW 0
          { users := [], administrators := [], revoked_tokens := [],
            token_to_connection_handler := [], connection_handler_to_tokens := [] }
          " Alice Smith ").2.1.users =
      some (hash_password (derive_username (pyStrip " Alice Smith "))) ∧
    has_user
        (identity_post tokW 0
          { users := [], administrators := [], revoked_tokens := [],
            token_to_connection_handler := [], connection_handler_to_tokens := [] }
          " Alice Smith ").2.1
        (derive_username (pyStrip " Alice Smith "))
        (derive_username (pyStrip " Alice Smith ")) = true ∧
    (login_post tokW₂ 1
        (identity_post tokW 0
          { users := [], administrators := [], revoked_tokens := [],
            token_to_connection_handler := [], connection_handler_to_tokens := [] }
          " Alice Smith ").2.1
        (derive_username (pyStrip " Alice Smith "))
        (derive_username (pyStrip " Alice Smith "))).1 = none :=
  ⟨by decide,
    identity_credential_is_username_hash tokW tokW₂ 0 1
      { users := [], administrators := [], revoked_tokens := [],
        token_to_connection_handler := [], connection_handler_to_tokens := [] }
      " Alice Smith " (by decide) (by decide) (by decide)⟩

/-- C1 (spec-modelled): for a talk-enabled active ServerGame at S1901T with
talk_round 0, an empty round state and two configured talk rounds, in which
no power is controlled (a new game, so round_complete holds trivially), four
successive process() calls produce, in order, round 1 round_open, round 2
round_open, orders_open, and finally phase S1901M with talk_round 0 and
empty round state; each of the first three calls — the ones that do not
advance the phase past T — returns (None, None, None) and leaves talk_ready
empty. -/
theorem talk_cycle_process (rules : List String) (powers : List PowerInfo)
    (ready held : List String) (hpr hpa : Bool)
    (hnt : "NO_TALK" ∉ rules)
    (hsol : ∀ p ∈ powers, p.controlled = false)
    (g₀ : ServerGameState)
    (hg₀ : g₀ =
      { status := "active", rules := rules, phase := ⟨.spring, 1901, .T⟩,
        powers := powers, talk_round := 0, talk_round_state := "", talk_ready := ready,
        talk_held_messages := held, talk_num_rounds := 2,
        has_pending_retreats := hpr, has_pending_adjustments := hpa }) :
    ((process g₀).1.phase = ⟨.spring, 1901, .T⟩ ∧
      (process g₀).1.talk_round = 1 ∧
      (process g₀).1.talk_round_state = "round_open" ∧
      (process g₀).1.talk_ready = [] ∧
      (process g₀).2 = (none, none, none)) ∧
    ((process (process g₀).1).1.phase = ⟨.spring, 1901, .T⟩ ∧
      (process (process g₀).1).1.talk_round = 2 ∧
      (process (process g₀).1).1.talk_round_state = "round_open" ∧
      (process (process g₀).1).1.talk_ready = [] ∧
      (process (process g₀).1).2 = (none, none, none)) ∧
    ((process (process (process g₀).1).1).1.phase = ⟨.spring, 1901, .T⟩ ∧
      (process (process (process g₀).1).1).1.talk_round_state = "orders_open" ∧
      (process (process (process g₀).1).1).1.talk_ready = [] ∧
      (process (process (process g₀).1).1).2 = (none, none, none)) ∧
    ((process (process (process (process g₀).1).1).1).1.phase = ⟨.spring, 1901, .M⟩ ∧
      (process (process (process (process g₀).1).1).1).1.talk_round = 0 ∧
      (process (process (process (process g₀).1).1).1).1.talk_round_state = "") := by
  subst hg₀
  have hcomp : ∀ (tr : Nat) (trs : String), (trs = "round_open" ∨ trs = "orders_open") →
      talk_round_complete
        { status := "active", rules := rules, phase := ⟨.spring, 1901, .T⟩,
          powers := powers, talk_round := tr, talk_round_state := trs, talk_ready := [],
          talk_held_messages := held, talk_num_rounds := 2,
          has_pending_retreats := hpr, has_pending_adjustments := hpa } = true := by
    intro tr trs htrs
    unfold talk_round_complete
    rcases htrs with h | h <;>
      simp [h, List.all_eq_true] <;>
      exact fun p hp => Or.inl (by simp [hsol p hp])
  have h1 : process
      { status := "active", rules := rules, phase := ⟨.spring, 1901, .T⟩,
        powers := powers, talk_round := 0, talk_round_state := "", talk_ready := ready,
        talk_held_messages := held, talk_num_rounds := 2,
        has_pending_retreats := hpr, has_pending_adjustments := hpa } =
      (
        { status := "active", rules := rules, phase := ⟨.spring, 1901, .T⟩,
          powers := powers, talk_round := 1, talk_round_state := "round_open",
          talk_ready := [], talk_held_messages := held, talk_num_rounds := 2,
          has_pending_retreats := hpr, has_pending_adjustments := hpa },
        (none, none, none)) := by
    unfold process
    rw [if_neg (by simp), if_pos (by simp [hnt]), if_pos (by simp)]
  have h2 : process
      { status := "active", rules := rules, phase := ⟨.spring, 1901, .T⟩,
        powers := powers, talk_round := 1, talk_round_state := "round_open",
        talk_ready := [], talk_held_messages := held, talk_num_rounds := 2,
        has_pending_retreats := hpr, has_pending_adjustments := hpa } =
      (
        { status := "active", rules := rules, phase := ⟨.spring, 1901, .T⟩,
          powers := powers, talk_round := 2, talk_round_state := "round_open",
          talk_ready := [], talk_held_messages := held, talk_num_rounds := 2,
          has_pending_retreats := hpr, has_pending_adjustments := hpa },
        (none, none, none)) := by
    unfold process
    rw [if_neg (by simp), if_pos (by simp [hnt]), if_neg (by simp),
      if_pos (hcomp 1 "round_open" (Or.inl rfl)), if_neg (by simp), if_pos (by simp)]
  have h3 : process
      { status := "active", rules := rules, phase := ⟨.spring, 1901, .T⟩,
        powers := powers, talk_round := 2, talk_round_state := "round_open",
        talk_ready := [], talk_held_messages := held, talk_num_rounds := 2,
        has_pending_retreats := hpr, has_pending_adjustments := hpa } =
      (
        { status := "active", rules := rules, phase := ⟨.spring, 1901, .T⟩,
          powers := powers, talk_round := 2, talk_round_state := "orders_open",
          talk_ready := [], talk_held_messages := held, talk_num_rounds := 2,
          has_pending_retreats := hpr, has_pending_adjustments := hpa },
        (none, none, none)) := by
    unfold process
    rw [if_neg (by simp), if_pos (by simp [hnt]), if_neg (by simp),
      if_pos (hcomp 2 "round_open" (Or.inl rfl)), if_neg (by simp), if_neg (by simp)]
  have hadv : advanceSkipping
      { status := "active", rules := rules, phase := ⟨.spring, 1901, .T⟩,
        powers := powers, talk_round := 0, talk_round_state := "", talk_ready := [],
        talk_held_messages := [], talk_num_rounds := 2,
        has_pending_retreats := hpr, has_pending_adjustments := hpa } 8
      ⟨.spring, 1901, .T⟩ = ⟨.spring, 1901, .M⟩ := by
    have hnext : findNextPhase ⟨.spring, 1901, .T⟩ = ⟨.spring, 1901, .M⟩ := by decide
    simp [advanceSkipping, hnext, shouldSkip]
  have h4 : process
      { status := "active", rules := rules, phase := ⟨.spring, 1901, .T⟩,
        powers := powers, talk_round := 2, talk_round_state := "orders_open",
        talk_ready := [], talk_held_messages := held, talk_num_rounds := 2,
        has_pending_retreats := hpr, has_pending_adjustments := hpa } =
      (
        { status := "active", rules := rules, phase := ⟨.spring, 1901, .M⟩,
          powers := powers, talk_round := 0, talk_round_state := "", talk_ready := [],
          talk_held_messages := [], talk_num_rounds := 2,
          has_pending_retreats := hpr, has_pending_adjustments := hpa },
        (some (shortPhase ⟨.spring, 1901, .T⟩), some (shortPhase ⟨.spring, 1901, .M⟩),
          none)) := by
    unfold process
    rw [if_neg (by simp), if_pos (by simp [hnt]), if_neg (by simp),
      if_pos (hcomp 2 "orders_open" (Or.inr rfl)), if_pos rfl]
    unfold engineProcess
    dsimp only
    rw [hadv]
  rw [h1]
  dsimp only
  rw [h2]
  dsimp only
  rw [h3]
  dsimp only
  rw [h4]
  exact ⟨⟨rfl, rfl, rfl, rfl, rfl⟩, ⟨rfl, rfl, rfl, rfl, rfl⟩,
    ⟨rfl, rfl, rfl, rfl⟩, ⟨rfl, rfl, rfl⟩⟩

/-- Closed witness for the C1 theorem: a concrete solitaire talk-enabled
game with the default rule set of the tests. -/
theorem talk_cycle_process_witness :
    ("NO_TALK" ∉ ["SOLITAIRE", "NO_PRESS", "IGNORE_ERRORS", "POWER_CHOICE"] ∧
      ∀ p ∈ powersSolW, p.controlled = false) ∧
    ((process
        { status := "active", rules := ["SOLITAIRE", "NO_PRESS", "IGNORE_ERRORS", "POWER_CHOICE"],
          phase := ⟨.spring, 1901, .T⟩, powers := powersSolW, talk_round := 0,
          talk_round_state := "", talk_ready := [], talk_held_messages := [],
          talk_num_rounds := 2, has_pending_retreats := false,
          has_pending_adjustments := false }).1.talk_round = 1 ∧
      (process (process
        { status := "active", rules := ["SOLITAIRE", "NO_PRESS", "IGNORE_ERRORS", "POWER_CHOICE"],
          phase := ⟨.spring, 1901, .T⟩, powers := powersSolW, talk_round := 0,
          talk_round_state := "", talk_ready := [], talk_held_messages := [],
          talk_num_rounds := 2, has_pending_retreats := false,
          has_pending_adjustments := false }).1).1.talk_round = 2 ∧
      (process (process (process
        { status := "active", rules := ["SOLITAIRE", "NO_PRESS", "IGNORE_ERRORS", "POWER_CHOICE"],
          phase := ⟨.spring, 1901, .T⟩, powers := powersSolW, talk_round := 0,
          talk_round_state := "", talk_ready := [], talk_held_messages := [],
          talk_num_rounds := 2, has_pending_retreats := false,
          has_pending_adjustments := false }).1).1).1.talk_round_state = "orders_open" ∧
      (process (process (process (process
        { status := "active", rules := ["SOLITAIRE", "NO_PRESS", "IGNORE_ERRORS", "POWER_CHOICE"],
          phase := ⟨.spring, 1901, .T⟩, powers := powersSolW, talk_round := 0,
          talk_round_state := "", talk_ready := [], talk_held_messages := [],
          talk_num_rounds := 2, has_pending_retreats := false,
          has_pending_adjustments := false }).1).1).1).1.phase = ⟨.spring, 1901, .M⟩) := by
  have h := talk_cycle_process
    ["SOLITAIRE", "NO_PRESS", "IGNORE_ERRORS", "POWER_CHOICE"] powersSolW [] [] false false
    (by decide) (by decide) _ rfl
  exact ⟨⟨by decide, by decide⟩, h.1.2.1, h.2.1.2.1, h.2.2.1.2.1, h.2.2.2.1⟩

end Diplomacy
